import Mathlib

/-!
Verification of the assistant_agent management daemon against its design
specification.  The Go sources are shallowly embedded: pure computations
become Lean functions, stateful methods become explicit state-passing
functions, and operating-system effects (temp-file creation, chmod,
process spawning) are supplied by an oracle record so that every code
path of the original program is represented.  Wall-clock timestamp
fields (StartTime, EndTime, Duration, LastRun, NextRun, ...) and
floating-point resource gauges are outside the model; no claim below
depends on them.
-/

namespace AssistantAgent

/-- Decidable equality on `Except`, used to evaluate concrete results. -/
instance {ε α : Type _} [DecidableEq ε] [DecidableEq α] :
    DecidableEq (Except ε α) := fun a b =>
  match a, b with
  | .error e₁, .error e₂ => decidable_of_iff (e₁ = e₂) (by simp)
  | .error _, .ok _ => isFalse (by simp)
  | .ok _, .error _ => isFalse (by simp)
  | .ok a₁, .ok a₂ => decidable_of_iff (a₁ = a₂) (by simp)

/-- Association-list lookup keyed by `String`, mirroring a read of a Go
`map[string]V`: the first binding for the key wins. -/
def lookupKey {β : Type _} : List (String × β) → String → Option β
  | [], _ => none
  | (k, v) :: rest, key => if k = key then some v else lookupKey rest key

/-- Association-list update, mirroring in-place mutation of the value a Go
map holds for `key` (every binding for the key is rewritten). -/
def setKey {β : Type _} (l : List (String × β)) (key : String) (v : β) :
    List (String × β) :=
  l.map fun kv => if kv.1 = key then (key, v) else kv

/-- Association-list deletion, mirroring Go `delete(m, key)`. -/
def eraseKey {β : Type _} (l : List (String × β)) (key : String) :
    List (String × β) :=
  l.filter fun kv => kv.1 ≠ key

namespace Executor

/-- `Command` from `internal/executor/executor.go`.  `CommandType` is kept
as the raw string carried on the wire ("shell", "powershell",
"container"). -/
structure Command where
  id : String
  type : String
  script : String
  args : List String
  workingDir : String
  timeout : Int
  containerID : String
  user : String
  env : List String
deriving Repr, DecidableEq

/-- `Result` from `internal/executor/executor.go`; the wall-clock fields
StartTime/EndTime/Duration are outside the model. -/
structure Result where
  id : String
  success : Bool
  exitCode : Int
  output : String
  error : String
deriving Repr, DecidableEq

/-- The observable content of a Go `exec.Cmd` at the moment
`CombinedOutput` is called: `env = none` models a nil `Env` field, which
makes the child inherit the ambient process environment unchanged. -/
structure SpawnSpec where
  path : String
  args : List String
  dir : String
  env : Option (List String)
deriving Repr, DecidableEq

/-- Outcome of running a spawned process.  `exitCode = some n` models a
non-nil `ProcessState` reporting exit code `n`. -/
structure RunOutcome where
  output : String
  err : Option String
  exitCode : Option Int
deriving Repr, DecidableEq

/-- Oracle for the operating-system calls the executor makes:
`environ` is `os.Environ()`, `createTemp` the outcome of
`createScriptFile` (temp-file creation plus script write), `chmod` the
outcome of `os.Chmod`, and `run` the behaviour of the spawned process. -/
structure OSEnv where
  environ : List String
  createTemp : Except String String
  chmod : String → Except String Unit
  run : SpawnSpec → RunOutcome

/-- Observable executor effects: a temp script file coming into
existence, and a process being spawned. -/
inductive Event where
  | tempFile (name : String)
  | spawn (s : SpawnSpec)
deriving Repr, DecidableEq

/-- The processes a trace spawned. -/
def spawnedSpecs (evs : List Event) : List SpawnSpec :=
  evs.filterMap fun e =>
    match e with
    | .spawn s => some s
    | _ => none

/-- The shared tail of all three surfaces: `CombinedOutput` plus the
error/exit-code bookkeeping of executor.go lines 183-192. -/
def finishRun (cmd : Command) (out : RunOutcome) : Result :=
  match out.err with
  | some e =>
    { id := cmd.id, success := false, exitCode := out.exitCode.getD 0,
      output := out.output, error := e }
  | none =>
    { id := cmd.id, success := true, exitCode := 0,
      output := out.output, error := "" }

/-- executor.go lines 170-177 and their copies: when `Timeout > 0` the
code rebuilds the command with
`exec.CommandContext(ctx, execCmd.Path, execCmd.Args[1:]...)`.  The
fresh `exec.Cmd` keeps only Path and Args; its `Dir` is the zero string
and its `Env` is nil (ambient environment), so the previously assigned
working directory and appended environment are discarded. -/
def applyTimeout (timeout : Int) (spec : SpawnSpec) : SpawnSpec :=
  if timeout > 0 then
    { path := spec.path, args := spec.path :: spec.args.drop 1,
      dir := "", env := none }
  else spec

/-- `executeShell` from executor.go (both GOOS branches run `bash`). -/
def executeShell (os : OSEnv) (workDir : String) (cmd : Command) :
    Result × List Event :=
  match os.createTemp with
  | .error e =>
    ({ id := cmd.id, success := false, exitCode := 0, output := "", error := e }, [])
  | .ok scriptFile =>
    match os.chmod scriptFile with
    | .error e =>
      ({ id := cmd.id, success := false, exitCode := 0, output := "", error := e },
       [.tempFile scriptFile])
    | .ok _ =>
      let execCmd : SpawnSpec :=
        { path := "bash", args := ["bash", scriptFile],
          dir := if cmd.workingDir ≠ "" then cmd.workingDir else workDir,
          env := some (os.environ ++ cmd.env) }
      let execCmd := applyTimeout cmd.timeout execCmd
      (finishRun cmd (os.run execCmd), [.tempFile scriptFile, .spawn execCmd])

/-- `executePowerShell` from executor.go. -/
def executePowerShell (os : OSEnv) (workDir : String) (cmd : Command) :
    Result × List Event :=
  match os.createTemp with
  | .error e =>
    ({ id := cmd.id, success := false, exitCode := 0, output := "", error := e }, [])
  | .ok scriptFile =>
    let execCmd : SpawnSpec :=
      { path := "powershell",
        args := ["powershell", "-ExecutionPolicy", "Bypass", "-File", scriptFile],
        dir := if cmd.workingDir ≠ "" then cmd.workingDir else workDir,
        env := some (os.environ ++ cmd.env) }
    let execCmd := applyTimeout cmd.timeout execCmd
    (finishRun cmd (os.run execCmd), [.tempFile scriptFile, .spawn execCmd])

/-- `executeContainer` from executor.go: the docker argument vector is
built before the spawn; the container process environment travels inside
the argument list as `-e` pairs, not in the spawned `docker` client's
`Env` (which is never assigned, hence nil/ambient). -/
def executeContainer (os : OSEnv) (cmd : Command) : Result × List Event :=
  if cmd.containerID = "" then
    ({ id := cmd.id, success := false, exitCode := 0, output := "",
       error := "container ID is required for container commands" }, [])
  else
    match os.createTemp with
    | .error e =>
      ({ id := cmd.id, success := false, exitCode := 0, output := "", error := e }, [])
    | .ok scriptFile =>
      let dockerArgs : List String :=
        ["exec"]
          ++ (if cmd.user ≠ "" then ["-u", cmd.user] else [])
          ++ (if cmd.workingDir ≠ "" then ["-w", cmd.workingDir] else [])
          ++ (cmd.env.flatMap fun e => ["-e", e])
          ++ [cmd.containerID, "bash", scriptFile]
      let execCmd : SpawnSpec :=
        { path := "docker", args := "docker" :: dockerArgs, dir := "", env := none }
      let execCmd := applyTimeout cmd.timeout execCmd
      (finishRun cmd (os.run execCmd), [.tempFile scriptFile, .spawn execCmd])

/-- `Execute` from executor.go: dispatch on the command type; an
unsupported type is rejected without touching the operating system. -/
def Execute (os : OSEnv) (workDir : String) (cmd : Command) :
    Result × List Event :=
  if cmd.type = "shell" then executeShell os workDir cmd
  else if cmd.type = "powershell" then executePowerShell os workDir cmd
  else if cmd.type = "container" then executeContainer os cmd
  else
    ({ id := cmd.id, success := false, exitCode := 0, output := "",
       error := "unsupported command type: " ++ cmd.type }, [])

/-- A live entry of the in-flight registry `Executor.running`:
`hasProcess` models `cmd.Process != nil`, `killResult` the outcome of
`cmd.Process.Kill()`. -/
structure Proc where
  hasProcess : Bool
  killResult : Option String
deriving Repr, DecidableEq

/-- `StopCommand` from executor.go: look the id up in the in-flight
registry; a kill failure is returned with the entry left in place;
otherwise the entry is deleted; an absent id is a silent no-op. -/
def StopCommand (running : List (String × Proc)) (id : String) :
    Option String × List (String × Proc) :=
  match lookupKey running id with
  | some proc =>
    if proc.hasProcess then
      match proc.killResult with
      | some e => (some e, running)
      | none => (none, eraseKey running id)
    else (none, eraseKey running id)
  | none => (none, running)

end Executor

namespace State

/-- The persisted `Status` record from `internal/state/manager.go`.
Timestamps are modelled in whole seconds (`Int`); the float64 resource
gauges (Uptime, MemoryUsage, CPUUsage, DiskUsage) are outside the
model. -/
structure Status where
  agentID : String
  version : String
  status : String
  startTime : Int
  lastHeartbeat : Int
  runningTasks : Int
  totalTasks : Int
deriving Repr, DecidableEq

/-- `IsHealthy` from manager.go lines 218-233, as a pure function of the
stored record and the current time `now` (seconds): unhealthy when the
heartbeat is more than five minutes stale or the status is not
"running". -/
def IsHealthy (m : Status) (now : Int) : Bool :=
  if now - m.lastHeartbeat > 5 * 60 then false
  else if m.status ≠ "running" then false
  else true

/-- `IsHealthy` as a step on the state store: the method body only reads
under `RLock`, so the store component of the result is the input store
unchanged. -/
def IsHealthyOp (m : Status) (now : Int) : Bool × Status :=
  (IsHealthy m now, m)

end State

namespace Updater

/-- Go `<` on strings compares the underlying byte sequences; because
UTF-8 preserves code-point order, this is lexicographic order on the
character sequences. -/
def ltChars : List Char → List Char → Bool
  | [], [] => false
  | [], _ :: _ => true
  | _ :: _, [] => false
  | a :: as, b :: bs =>
    if a.toNat < b.toNat then true
    else if b.toNat < a.toNat then false
    else ltChars as bs

/-- Go string comparison `v1 < v2`. -/
def goStringLt (a b : String) : Bool := ltChars a.data b.data

/-- `compareVersions` from `internal/plugin/updater/updater.go`: plain Go
string comparison, not semantic-version comparison. -/
def compareVersions (v1 v2 : String) : Int :=
  if v1 = v2 then 0
  else if goStringLt v2 v1 then 1
  else -1

/-- `UpdateInfo` from updater.go (the wall-clock release date is outside
the model). -/
structure UpdateInfo where
  version : String
  url : String
  checksum : String
  changelog : String
  size : Int
deriving Repr, DecidableEq

/-- `isUpdateAvailable` from updater.go, parameterised by the outcome of
the remote `checkUpdate` call (which in the current code is a stub that
always yields no update): an update is reported exactly when the offered
version string compares greater than the current version string. -/
def isUpdateAvailable (current : String)
    (checkUpdate : Except String (Option UpdateInfo)) :
    Except String (Bool × Option UpdateInfo) :=
  match checkUpdate with
  | .error e => .error e
  | .ok none => .ok (false, none)
  | .ok (some u) => .ok (compareVersions u.version current > 0, some u)

end Updater

namespace Plugin

/-- `PluginInfo` from `internal/plugin/types.go`. -/
structure PluginInfo where
  name : String
  version : String
  description : String
  author : String
  license : String
  homepage : String
  tags : List String
  config : List (String × String)
deriving Repr, DecidableEq

/-- The two fields of `PluginStatus` the manager reads and writes during
lifecycle transitions (timestamps and the metrics map are outside the
model). -/
structure PluginStatus where
  status : String
  lastError : String
deriving Repr, DecidableEq

/-- The behaviour of one registered `Plugin` value, abstracted: the
descriptor it returns from `Info()` (nil modelled as `none`) and the
outcomes of its lifecycle and dispatch methods.  `α` is the opaque
argument payload (`map[string]interface{}`), `ρ` the opaque command
result (`interface{}`). -/
structure PluginImpl (α ρ : Type) where
  info : Option PluginInfo
  initResult : Except String Unit
  startResult : Except String Unit
  stopResult : Except String Unit
  handleCommand : String → α → Except String ρ
  handleEvent : String → α → Except String Unit

/-- `PluginInstance` from `internal/plugin/manager.go`: the plugin value
plus its mutable status record.  The per-plugin config map and config
file path are file-IO concerns outside the model. -/
structure Instance (α ρ : Type) where
  plugin : PluginImpl α ρ
  status : PluginStatus

/-- The `Manager`'s mutable registry `plugins map[string]*PluginInstance`. -/
structure MState (α ρ : Type) where
  plugins : List (String × Instance α ρ)

/-- Observable lifecycle calls the manager makes into a plugin. -/
inductive PEvent where
  | initCalled (name : String)
  | startCalled (name : String)
  | stopCalled (name : String)
deriving Repr, DecidableEq

/-- `Register` from manager.go: reject a nil descriptor, reject a name
collision with `ErrPluginAlreadyExists`, otherwise insert a fresh
instance with status "stopped". -/
def Register {α ρ : Type} (m : MState α ρ) (p : PluginImpl α ρ) :
    Except String Unit × MState α ρ :=
  match p.info with
  | none => (.error "invalid plugin info", m)
  | some info =>
    if (lookupKey m.plugins info.name).isSome then
      (.error "plugin already exists", m)
    else
      (.ok (),
       ⟨m.plugins ++
         [(info.name, { plugin := p, status := { status := "stopped", lastError := "" } })]⟩)

/-- `Unregister` from manager.go: "not found" for an unknown name;
otherwise a running instance is stopped first (a stop failure is only
logged) and the entry is removed. -/
def Unregister {α ρ : Type} (m : MState α ρ) (name : String) :
    Except String Unit × MState α ρ :=
  match lookupKey m.plugins name with
  | none => (.error "plugin not found", m)
  | some _ => (.ok (), ⟨eraseKey m.plugins name⟩)

/-- `StartPlugin` from manager.go.  A missing name fails with "plugin not
found"; an instance already running fails with "plugin already started"
before `Init` or `Start` is invoked; otherwise the per-plugin config
load is attempted (failure only logged), `Init` then `Start` run, a
failure of either marks the instance `error` with the message retained,
and success marks it `running`.  The third component is the trace of
lifecycle calls made into the plugin. -/
def StartPlugin {α ρ : Type} (m : MState α ρ) (name : String) :
    Except String Unit × MState α ρ × List PEvent :=
  match lookupKey m.plugins name with
  | none => (.error "plugin not found", m, [])
  | some inst =>
    if inst.status.status = "running" then
      (.error "plugin already started", m, [])
    else
      match inst.plugin.initResult with
      | .error e =>
        (.error ("failed to init plugin " ++ name ++ ": " ++ e),
         ⟨setKey m.plugins name
           { inst with status := { status := "error", lastError := e } }⟩,
         [.initCalled name])
      | .ok _ =>
        match inst.plugin.startResult with
        | .error e =>
          (.error ("failed to start plugin " ++ name ++ ": " ++ e),
           ⟨setKey m.plugins name
             { inst with status := { status := "error", lastError := e } }⟩,
           [.initCalled name, .startCalled name])
        | .ok _ =>
          (.ok (),
           ⟨setKey m.plugins name
             { inst with status := { status := "running", lastError := "" } }⟩,
           [.initCalled name, .startCalled name])

/-- `StopPlugin` from manager.go: "not found" / "not started" guards,
then `Stop()`; a failure marks the instance `error`, success persists
the config (failure only logged) and marks it `stopped`. -/
def StopPlugin {α ρ : Type} (m : MState α ρ) (name : String) :
    Except String Unit × MState α ρ × List PEvent :=
  match lookupKey m.plugins name with
  | none => (.error "plugin not found", m, [])
  | some inst =>
    if inst.status.status ≠ "running" then
      (.error "plugin not started", m, [])
    else
      match inst.plugin.stopResult with
      | .error e =>
        (.error ("failed to stop plugin " ++ name ++ ": " ++ e),
         ⟨setKey m.plugins name
           { inst with status := { status := "error", lastError := e } }⟩,
         [.stopCalled name])
      | .ok _ =>
        (.ok (),
         ⟨setKey m.plugins name
           { inst with status := { status := "stopped", lastError := "" } }⟩,
         [.stopCalled name])

/-- The loop body of `StartAll`: start each named plugin in turn,
collecting every individual failure (wrapped as in the Go `fmt.Errorf`)
while always attempting the rest. -/
def startAllLoop {α ρ : Type} (m : MState α ρ) :
    List String → MState α ρ × List String × List PEvent
  | [] => (m, [], [])
  | name :: rest =>
    let step := StartPlugin m name
    let tail := startAllLoop step.2.1 rest
    match step.1 with
    | .error e =>
      (tail.1, ("failed to start plugin " ++ name ++ ": " ++ e) :: tail.2.1,
       step.2.2 ++ tail.2.2)
    | .ok _ => (tail.1, tail.2.1, step.2.2 ++ tail.2.2)

/-- `StartAll` from manager.go: snapshot the registered names, attempt
every one, and fail with a combined error exactly when at least one
individual start failed. -/
def StartAll {α ρ : Type} (m : MState α ρ) :
    Except String Unit × MState α ρ × List PEvent :=
  let names := m.plugins.map Prod.fst
  let out := startAllLoop m names
  (if out.2.1 = [] then .ok ()
   else .error ("failed to start some plugins: " ++ String.intercalate "; " out.2.1),
   out.1, out.2.2)

/-- `SendCommand` from manager.go: "not found" for an unknown name, "not
started" unless the instance's status is "running", otherwise the call
is forwarded synchronously and the plugin's result or error is returned
unchanged. -/
def SendCommand {α ρ : Type} (m : MState α ρ) (pluginName command : String)
    (args : α) : Except String ρ :=
  match lookupKey m.plugins pluginName with
  | none => .error "plugin not found"
  | some inst =>
    if inst.status.status ≠ "running" then .error "plugin not started"
    else inst.plugin.handleCommand command args

/-- `SendEvent` from manager.go, with the same guard structure as
`SendCommand`. -/
def SendEvent {α ρ : Type} (m : MState α ρ) (pluginName eventType : String)
    (data : α) : Except String Unit :=
  match lookupKey m.plugins pluginName with
  | none => .error "plugin not found"
  | some inst =>
    if inst.status.status ≠ "running" then .error "plugin not started"
    else inst.plugin.handleEvent eventType data

/-- The registry states reachable from a fresh `NewManager` (empty map)
under the manager's operations.  `mutateValue` over-approximates every
operation that rewrites the instance stored for an existing key without
touching the key set (status polling, config load, lifecycle
bookkeeping). -/
inductive Reachable {α ρ : Type} : MState α ρ → Prop
  | init : Reachable ⟨[]⟩
  | register (m : MState α ρ) (p : PluginImpl α ρ) :
      Reachable m → Reachable (Register m p).2
  | unregister (m : MState α ρ) (name : String) :
      Reachable m → Reachable (Unregister m name).2
  | start (m : MState α ρ) (name : String) :
      Reachable m → Reachable (StartPlugin m name).2.1
  | stop (m : MState α ρ) (name : String) :
      Reachable m → Reachable (StopPlugin m name).2.1
  | mutateValue (m : MState α ρ) (name : String) (inst : Instance α ρ) :
      Reachable m → Reachable ⟨setKey m.plugins name inst⟩

end Plugin

namespace Scheduler

/-- `TaskInfo` from the scheduler plugin.  The wall-clock fields
(LastRun, NextRun, LastResult) and the opaque metadata map are outside
the model; `entryID = 0` models the zero `cron.EntryID`, i.e. no live
scheduler entry. -/
structure TaskInfo where
  id : String
  name : String
  description : String
  cronExpr : String
  command : String
  args : List String
  type : String
  enabled : Bool
  status : String
  runCount : Int
  successCount : Int
  failureCount : Int
  entryID : Nat
deriving Repr, DecidableEq

/-- The state of the underlying `cron.Cron` instance: the set of live
entry ids and the next id it will hand out (robfig/cron ids start at 1,
so 0 never denotes a live entry). -/
structure CronSched where
  entries : List Nat
  nextID : Nat
deriving Repr, DecidableEq

/-- `cron.Cron.AddFunc`, parameterised by the validity predicate of the
scheduler's own (seconds-enabled) cron parser: an invalid expression is
an error, a valid one allocates a fresh entry id. -/
def addFunc (validCron6 : String → Bool) (s : CronSched) (expr : String) :
    Except String (Nat × CronSched) :=
  if validCron6 expr then
    .ok (s.nextID, { entries := s.entries ++ [s.nextID], nextID := s.nextID + 1 })
  else .error "invalid cron spec"

/-- `cron.Cron.Remove`. -/
def removeEntry (s : CronSched) (id : Nat) : CronSched :=
  { s with entries := s.entries.filter (· ≠ id) }

/-- `addToScheduler` from the scheduler plugin: register the task's cron
expression and record the allocated entry id on the task (the computed
next-fire time is a wall-clock value outside the model). -/
def addToScheduler (validCron6 : String → Bool) (s : CronSched)
    (task : TaskInfo) : Except String (TaskInfo × CronSched) :=
  match addFunc validCron6 s task.cronExpr with
  | .error e => .error e
  | .ok (entryID, s') => .ok ({ task with entryID := entryID }, s')

/-- The scheduler plugin's mutable state: the task map and the cron
instance. -/
structure SchedState where
  tasks : List (String × TaskInfo)
  sched : CronSched
deriving Repr, DecidableEq

/-- The fields an `update_task` request may carry (`none` models a key
absent from the args map or not a string). -/
structure UpdateArgs where
  id : Option String
  name : Option String
  description : Option String
  cronExpr : Option String
  command : Option String
  type : Option String
deriving Repr, DecidableEq

/-- The tail of `handleUpdateTask` after the cron-expression check: apply
the command and type updates, then, if the task is enabled with a live
entry, remove that entry and re-register the task (a registration
failure is returned with the removal and the field updates already
applied, mirroring the in-place mutation of the shared `*TaskInfo`). -/
def handleUpdateTaskRest (validCron6 : String → Bool) (st : SchedState)
    (id : String) (task : TaskInfo) (args : UpdateArgs) :
    Except String String × SchedState :=
  let task :=
    match args.command with
    | some c => { task with command := c }
    | none => task
  let task :=
    match args.type with
    | some t => { task with type := t }
    | none => task
  if task.enabled && task.entryID != 0 then
    let sched₁ := removeEntry st.sched task.entryID
    match addToScheduler validCron6 sched₁ task with
    | .error e => (.error e, { tasks := setKey st.tasks id task, sched := sched₁ })
    | .ok (task', sched₂) =>
      (.ok "Task updated successfully",
       { tasks := setKey st.tasks id task', sched := sched₂ })
  else
    (.ok "Task updated successfully",
     { tasks := setKey st.tasks id task, sched := st.sched })

/-- `handleUpdateTask` from the scheduler plugin.  The handler mutates
the shared `*TaskInfo` field by field, so the name and description
assignments made before the cron-expression validation stay applied when
the validation rejects the request.  `validCron5` is the validity
predicate of `cron.ParseStandard` (the five-field parser used for
validation); `validCron6` the one of the scheduler's own parser. -/
def handleUpdateTask (validCron5 validCron6 : String → Bool)
    (st : SchedState) (args : UpdateArgs) : Except String String × SchedState :=
  match args.id with
  | none => (.error "id is required", st)
  | some id =>
    match lookupKey st.tasks id with
    | none => (.error "task not found", st)
    | some task₀ =>
      let task₁ :=
        match args.name with
        | some n => { task₀ with name := n }
        | none => task₀
      let task₂ :=
        match args.description with
        | some d => { task₁ with description := d }
        | none => task₁
      match args.cronExpr with
      | some ce =>
        if validCron5 ce then
          handleUpdateTaskRest validCron6 st id { task₂ with cronExpr := ce } args
        else
          (.error "invalid cron expression", { st with tasks := setKey st.tasks id task₂ })
      | none => handleUpdateTaskRest validCron6 st id task₂ args

/-- A concrete stand-in for the shape `cron.ParseStandard` accepts (five
space-separated fields, i.e. four separating blanks), used to
instantiate the validator parameters on concrete inputs. -/
def stdCronOk (s : String) : Bool := s.data.count ' ' = 4

end Scheduler

namespace Samples

/-- A benign operating-system oracle: temp-file creation and chmod
succeed, the spawned process exits cleanly with no output. -/
def osA : Executor.OSEnv :=
  { environ := ["PATH=/usr/bin"],
    createTemp := .ok "/tmp/script_1.sh",
    chmod := fun _ => .ok (),
    run := fun _ => { output := "", err := none, exitCode := none } }

/-- A shell command with a positive timeout and one appended environment
entry. -/
def cmdShellTimeout : Executor.Command :=
  { id := "c1", type := "shell", script := "echo hi", args := [],
    workingDir := "", timeout := 1, containerID := "", user := "",
    env := ["FOO=bar"] }

/-- A container command with an empty container id. -/
def cmdContainerNoID : Executor.Command :=
  { id := "c4", type := "container", script := "echo hi", args := [],
    workingDir := "", timeout := 0, containerID := "", user := "",
    env := [] }

/-- A one-entry in-flight registry. -/
def runningOne : List (String × Executor.Proc) :=
  [("job-1", { hasProcess := true, killResult := none })]

/-- A concrete persisted status record. -/
def statusA : State.Status :=
  { agentID := "a1", version := "1.0.0", status := "running",
    startTime := 0, lastHeartbeat := 1000, runningTasks := 0, totalTasks := 0 }

/-- Descriptor of the sample plugin "alpha". -/
def infoAlpha : Plugin.PluginInfo :=
  { name := "alpha", version := "1.0.0", description := "", author := "",
    license := "", homepage := "", tags := [], config := [] }

/-- Descriptor of the sample plugin "beta". -/
def infoBeta : Plugin.PluginInfo :=
  { name := "beta", version := "1.0.0", description := "", author := "",
    license := "", homepage := "", tags := [], config := [] }

/-- A well-behaved plugin value named "alpha". -/
def pluginAlpha : Plugin.PluginImpl Unit String :=
  { info := some infoAlpha, initResult := .ok (), startResult := .ok (),
    stopResult := .ok (),
    handleCommand := fun c _ => .ok ("ran " ++ c),
    handleEvent := fun _ _ => .ok () }

/-- A well-behaved plugin value named "beta". -/
def pluginBeta : Plugin.PluginImpl Unit String :=
  { info := some infoBeta, initResult := .ok (), startResult := .ok (),
    stopResult := .ok (),
    handleCommand := fun c _ => .ok ("ran " ++ c),
    handleEvent := fun _ _ => .ok () }

/-- "alpha" registered and running. -/
def instAlphaRunning : Plugin.Instance Unit String :=
  { plugin := pluginAlpha, status := { status := "running", lastError := "" } }

/-- "beta" registered but stopped. -/
def instBetaStopped : Plugin.Instance Unit String :=
  { plugin := pluginBeta, status := { status := "stopped", lastError := "" } }

/-- A registry holding a running "alpha" and a stopped "beta". -/
def mTwo : Plugin.MState Unit String :=
  ⟨[("alpha", instAlphaRunning), ("beta", instBetaStopped)]⟩

/-- A registry holding only the running "alpha". -/
def mRun : Plugin.MState Unit String :=
  ⟨[("alpha", instAlphaRunning)]⟩

/-- A disabled task with no live scheduler entry. -/
def taskT1 : Scheduler.TaskInfo :=
  { id := "t1", name := "old-name", description := "old-desc",
    cronExpr := "0 0 * * *", command := "echo", args := [], type := "shell",
    enabled := false, status := "active", runCount := 0, successCount := 0,
    failureCount := 0, entryID := 0 }

/-- A scheduler state holding the single task `taskT1`. -/
def stT1 : Scheduler.SchedState :=
  { tasks := [("t1", taskT1)], sched := { entries := [], nextID := 1 } }

/-- An `update_task` request renaming `t1` and carrying an invalid cron
expression. -/
def argsBadCron : Scheduler.UpdateArgs :=
  { id := some "t1", name := some "new-name", description := none,
    cronExpr := some "nonsense", command := none, type := none }

end Samples

/-! ## Association-list facts shared by the proofs -/

theorem setKey_cons {β : Type _} (a : String) (b : β) (rest : List (String × β))
    (k : String) (v : β) :
    setKey ((a, b) :: rest) k v =
      (if a = k then (k, v) else (a, b)) :: setKey rest k v := rfl

theorem lookupKey_eq_none_iff {β : Type _} (l : List (String × β)) (k : String) :
    lookupKey l k = none ↔ k ∉ l.map Prod.fst := by
  induction l with
  | nil => simp [lookupKey]
  | cons kv rest ih =>
    obtain ⟨k', v⟩ := kv
    by_cases h : k' = k
    · subst h
      simp [lookupKey]
    · rw [List.map_cons, List.mem_cons]
      simp only [lookupKey, if_neg h]
      rw [ih]
      constructor
      · intro hn hc
        rcases hc with hc | hc
        · exact h hc.symm
        · exact hn hc
      · intro hn hc
        exact hn (Or.inr hc)

theorem lookupKey_mem {β : Type _} {l : List (String × β)} {k : String} {v : β}
    (h : lookupKey l k = some v) : (k, v) ∈ l := by
  induction l with
  | nil => simp [lookupKey] at h
  | cons kv rest ih =>
    obtain ⟨k', w⟩ := kv
    by_cases hk : k' = k
    · subst hk
      have hw : w = v := by simpa [lookupKey] using h
      subst hw
      exact List.mem_cons_self _ _
    · simp only [lookupKey, if_neg hk] at h
      exact List.mem_cons_of_mem _ (ih h)

theorem lookupKey_isSome_of_mem {β : Type _} {l : List (String × β)} {k : String}
    (h : k ∈ l.map Prod.fst) : (lookupKey l k).isSome := by
  induction l with
  | nil => simp at h
  | cons kv rest ih =>
    obtain ⟨k', v⟩ := kv
    by_cases hk : k' = k
    · simp [lookupKey, hk]
    · rw [List.map_cons, List.mem_cons] at h
      rcases h with h | h
      · exact absurd h.symm hk
      · simp only [lookupKey, if_neg hk]
        exact ih h

theorem lookupKey_setKey_self {β : Type _} {l : List (String × β)} {k : String}
    (h : (lookupKey l k).isSome) (w : β) :
    lookupKey (setKey l k w) k = some w := by
  induction l with
  | nil => simp [lookupKey] at h
  | cons kv rest ih =>
    obtain ⟨k', u⟩ := kv
    rw [setKey_cons]
    by_cases hk : k' = k
    · rw [if_pos hk]
      simp [lookupKey]
    · rw [if_neg hk]
      simp only [lookupKey, if_neg hk]
      simp only [lookupKey, if_neg hk] at h
      exact ih h

theorem setKey_map_fst {β : Type _} (l : List (String × β)) (k : String) (v : β) :
    (setKey l k v).map Prod.fst = l.map Prod.fst := by
  induction l with
  | nil => simp [setKey]
  | cons kv rest ih =>
    obtain ⟨k', u⟩ := kv
    rw [setKey_cons]
    by_cases hk : k' = k
    · rw [if_pos hk]
      simp [ih, hk]
    · rw [if_neg hk]
      simp [ih]

theorem eraseKey_keys_sublist {β : Type _} (l : List (String × β)) (k : String) :
    List.Sublist ((eraseKey l k).map Prod.fst) (l.map Prod.fst) :=
  (List.filter_sublist l).map Prod.fst

/-! ## Command Executor (claims C1, C3, C4, C9) -/

namespace Executor

theorem finishRun_id (cmd : Command) (out : RunOutcome) :
    (finishRun cmd out).id = cmd.id := by
  unfold finishRun
  cases out.err <;> rfl

theorem executeShell_id (os : OSEnv) (workDir : String) (cmd : Command) :
    (executeShell os workDir cmd).1.id = cmd.id := by
  unfold executeShell
  split
  · rfl
  · split
    · rfl
    · simp [finishRun_id]

theorem executePowerShell_id (os : OSEnv) (workDir : String) (cmd : Command) :
    (executePowerShell os workDir cmd).1.id = cmd.id := by
  unfold executePowerShell
  split
  · rfl
  · simp [finishRun_id]

theorem executeContainer_id (os : OSEnv) (cmd : Command) :
    (executeContainer os cmd).1.id = cmd.id := by
  unfold executeContainer
  split
  · rfl
  · split
    · rfl
    · simp [finishRun_id]

/-- Claim C3: for every Command and every execution path of `Execute`
(supported or unsupported type, success, failure, missing container id —
all covered by the universally quantified oracle), the returned Result's
id equals the Command's id. -/
theorem Execute_result_id (os : OSEnv) (workDir : String) (cmd : Command) :
    (Execute os workDir cmd).1.id = cmd.id := by
  unfold Execute
  by_cases h1 : cmd.type = "shell"
  · simp [h1, executeShell_id]
  · by_cases h2 : cmd.type = "powershell"
    · simp [h1, h2, executePowerShell_id]
    · by_cases h3 : cmd.type = "container"
      · simp [h1, h2, h3, executeContainer_id]
      · simp [h1, h2, h3]

/-- Claim C4: a container-type Command with an empty container id is
rejected with the specific error message, with `success = false`, and
with an empty effect trace — no temporary script file is created and no
process is spawned. -/
theorem Execute_container_empty_id (os : OSEnv) (workDir : String)
    (cmd : Command) (ht : cmd.type = "container") (hid : cmd.containerID = "") :
    Execute os workDir cmd =
      ({ id := cmd.id, success := false, exitCode := 0, output := "",
         error := "container ID is required for container commands" }, []) := by
  unfold Execute executeContainer
  rw [ht]
  simp [hid]

/-- Witness for C4 at the concrete command `cmdContainerNoID`. -/
theorem Execute_container_empty_id_witness :
    Samples.cmdContainerNoID.type = "container" ∧
    Samples.cmdContainerNoID.containerID = "" ∧
    Execute Samples.osA "/work" Samples.cmdContainerNoID =
      ({ id := "c4", success := false, exitCode := 0, output := "",
         error := "container ID is required for container commands" }, []) :=
  ⟨rfl, rfl, Execute_container_empty_id Samples.osA "/work" Samples.cmdContainerNoID rfl rfl⟩

/-- Claim C1 (refuted by the code): on the shell surface with a positive
timeout, the rebuilt `exec.CommandContext` command is spawned with a nil
`Env` — the ambient environment alone — rather than the ambient
environment with the Command's env entries appended; with `timeout <= 0`
the very same command is spawned with the appended environment.  The
concrete run below exhibits the divergence. -/
theorem executeShell_timeout_discards_appended_env :
    spawnedSpecs (executeShell Samples.osA "/work" Samples.cmdShellTimeout).2 =
      [{ path := "bash", args := ["bash", "/tmp/script_1.sh"], dir := "", env := none }] ∧
    spawnedSpecs
        (executeShell Samples.osA "/work"
          { Samples.cmdShellTimeout with timeout := 0 }).2 =
      [{ path := "bash", args := ["bash", "/tmp/script_1.sh"], dir := "/work",
         env := some (["PATH=/usr/bin"] ++ ["FOO=bar"]) }] ∧
    (none : Option (List String)) ≠ some (["PATH=/usr/bin"] ++ ["FOO=bar"]) := by
  refine ⟨rfl, rfl, ?_⟩
  decide

/-- Claim C9: `StopCommand` on an id that is not in the in-flight
registry returns a nil error and leaves the registry unchanged. -/
theorem StopCommand_absent_id (running : List (String × Proc)) (id : String)
    (h : lookupKey running id = none) :
    StopCommand running id = (none, running) := by
  unfold StopCommand
  rw [h]

/-- Witness for C9: stopping an unknown id over a one-entry registry. -/
theorem StopCommand_absent_id_witness :
    lookupKey Samples.runningOne "no-such-id" = none ∧
    StopCommand Samples.runningOne "no-such-id" = (none, Samples.runningOne) :=
  ⟨rfl, StopCommand_absent_id Samples.runningOne "no-such-id" rfl⟩

end Executor

/-! ## State Store (claim C7) -/

namespace State

/-- Claim C7: `IsHealthy` is false exactly when the stored status is not
"running" or the stored heartbeat is more than five minutes (300 s)
older than the current time, and it leaves the state store unchanged. -/
theorem IsHealthy_false_iff (m : Status) (now : Int) :
    (IsHealthyOp m now).2 = m ∧
    (IsHealthy m now = false ↔
      (m.status ≠ "running" ∨ now - m.lastHeartbeat > 5 * 60)) := by
  refine ⟨rfl, ?_⟩
  by_cases h1 : now - m.lastHeartbeat > 5 * 60 <;>
    by_cases h2 : m.status = "running" <;>
      simp [IsHealthy, h1, h2]

/-- Witness for C7 at a concrete record and clock. -/
theorem IsHealthy_false_iff_witness :
    (IsHealthyOp Samples.statusA 1100).2 = Samples.statusA ∧
    (IsHealthy Samples.statusA 1100 = false ↔
      (Samples.statusA.status ≠ "running" ∨
        (1100 : Int) - Samples.statusA.lastHeartbeat > 5 * 60)) :=
  IsHealthy_false_iff Samples.statusA 1100

end State

/-! ## Updater version comparison (claim C8) -/

namespace Updater

theorem charLt_iff (a b : Char) : a < b ↔ a.toNat < b.toNat := Iff.rfl

theorem charEq_of_toNat (a b : Char) (h : a.toNat = b.toNat) : a = b :=
  Char.eq_of_val_eq (UInt32.toNat.inj h)

/-- The Go byte-wise string order coincides with lexicographic order
(`List.Lex`) on the character sequences. -/
theorem ltChars_iff :
    ∀ as bs : List Char, ltChars as bs = true ↔ List.Lex (· < ·) as bs := by
  intro as
  induction as with
  | nil =>
    intro bs
    cases bs with
    | nil => simp [ltChars]
    | cons b bs => simp [ltChars, List.Lex.nil]
  | cons a as ih =>
    intro bs
    cases bs with
    | nil => simp [ltChars]
    | cons b bs =>
      simp only [ltChars]
      rcases Nat.lt_trichotomy a.toNat b.toNat with h | h | h
      · simp only [if_pos h, true_iff]
        exact List.Lex.rel ((charLt_iff a b).mpr h)
      · have hab : a = b := charEq_of_toNat a b h
        subst hab
        simp only [Nat.lt_irrefl, if_false]
        rw [ih bs]
        constructor
        · exact fun hl => List.Lex.cons hl
        · intro hl
          cases hl with
          | cons h' => exact h'
          | rel h' => exact absurd h' (lt_irrefl a)
      · have h1 : ¬ a.toNat < b.toNat := Nat.lt_asymm h
        simp only [if_neg h1, if_pos h, Bool.false_eq_true, false_iff]
        intro hl
        cases hl with
        | cons h' => exact Nat.lt_irrefl _ h
        | rel h' => exact absurd ((charLt_iff _ _).mp h') (Nat.lt_asymm h)

theorem ltChars_self (l : List Char) : ltChars l l = false := by
  induction l with
  | nil => rfl
  | cons a as ih => simp [ltChars, ih]

theorem compareVersions_pos_iff (v1 v2 : String) :
    compareVersions v1 v2 > 0 ↔ goStringLt v2 v1 = true := by
  by_cases he : v1 = v2
  · subst he
    simp [compareVersions, goStringLt, ltChars_self]
  · by_cases hb : goStringLt v2 v1 = true <;>
      simp [compareVersions, he, hb]

/-- Claim C8: `compareVersions` is plain lexical string comparison — 0 on
equal strings, 1 when the first is lexicographically greater, −1
otherwise — so "10.0.0" compares below "2.0.0", and `isUpdateAvailable`
reports an offered update exactly when the offered version string is
lexicographically greater than the current version. -/
theorem compareVersions_is_lexical :
    compareVersions "10.0.0" "2.0.0" = -1 ∧
    (∀ v1 v2 : String,
      (compareVersions v1 v2 = 0 ↔ v1 = v2) ∧
      (compareVersions v1 v2 = 1 ↔ List.Lex (· < ·) v2.data v1.data) ∧
      (compareVersions v1 v2 = -1 ↔
        ¬ v1 = v2 ∧ ¬ List.Lex (· < ·) v2.data v1.data)) ∧
    (∀ (cur : String) (u : UpdateInfo),
      isUpdateAvailable cur (.ok (some u)) =
        .ok (ltChars cur.data u.version.data, some u) ∧
      (ltChars cur.data u.version.data = true ↔
        List.Lex (· < ·) cur.data u.version.data)) := by
  refine ⟨by decide, ?_, ?_⟩
  · intro v1 v2
    by_cases he : v1 = v2
    · subst he
      have hnlex : ¬ List.Lex (· < ·) v1.data v1.data := by
        rw [← ltChars_iff]
        simp [ltChars_self]
      simp [compareVersions, goStringLt, ltChars_self, hnlex]
    · by_cases hb : goStringLt v2 v1 = true
      · have hlex : List.Lex (· < ·) v2.data v1.data := by
          rw [← ltChars_iff]
          simpa [goStringLt] using hb
        simp [compareVersions, he, hb, hlex]
      · have hnlex : ¬ List.Lex (· < ·) v2.data v1.data := by
          rw [← ltChars_iff]
          simpa [goStringLt] using hb
        simp [compareVersions, he, hb, hnlex]
  · intro cur u
    refine ⟨?_, ltChars_iff _ _⟩
    have hd : decide (compareVersions u.version cur > 0) =
        ltChars cur.data u.version.data := by
      cases hb : ltChars cur.data u.version.data
      · apply decide_eq_false
        intro hgt
        have := (compareVersions_pos_iff u.version cur).mp hgt
        simp [goStringLt, hb] at this
      · apply decide_eq_true
        apply (compareVersions_pos_iff u.version cur).mpr
        simpa [goStringLt] using hb
    simp only [isUpdateAvailable]
    rw [hd]

end Updater

/-! ## Plugin Registry (claims C5, C6, C10) -/

namespace Plugin

/-- Claim C5: `SendCommand` and `SendEvent` fail with "plugin not found"
for an unregistered name, fail with "plugin not started" when the
instance's status is not "running", and otherwise forward the call
synchronously, returning the plugin's own result or error unchanged. -/
theorem SendCommand_SendEvent_dispatch (α ρ : Type) (m : MState α ρ)
    (name command eventType : String) (args data : α) :
    (lookupKey m.plugins name = none →
      SendCommand m name command args = .error "plugin not found" ∧
      SendEvent m name eventType data = .error "plugin not found") ∧
    (∀ inst, lookupKey m.plugins name = some inst →
      inst.status.status ≠ "running" →
      SendCommand m name command args = .error "plugin not started" ∧
      SendEvent m name eventType data = .error "plugin not started") ∧
    (∀ inst, lookupKey m.plugins name = some inst →
      inst.status.status = "running" →
      SendCommand m name command args = inst.plugin.handleCommand command args ∧
      SendEvent m name eventType data = inst.plugin.handleEvent eventType data) := by
  refine ⟨?_, ?_, ?_⟩
  · intro h
    constructor <;> simp [SendCommand, SendEvent, h]
  · intro inst h hs
    constructor <;> simp [SendCommand, SendEvent, h, hs]
  · intro inst h hs
    constructor <;> simp [SendCommand, SendEvent, h, hs]

/-- Witness for C5 over a registry with a running "alpha" and a stopped
"beta": all three behaviours at concrete inputs. -/
theorem SendCommand_SendEvent_dispatch_witness :
    lookupKey Samples.mTwo.plugins "gamma" = none ∧
    SendCommand Samples.mTwo "gamma" "ping" () = .error "plugin not found" ∧
    SendEvent Samples.mTwo "gamma" "ev" () = .error "plugin not found" ∧
    SendCommand Samples.mTwo "beta" "ping" () = .error "plugin not started" ∧
    SendEvent Samples.mTwo "beta" "ev" () = .error "plugin not started" ∧
    SendCommand Samples.mTwo "alpha" "ping" () = .ok "ran ping" ∧
    SendEvent Samples.mTwo "alpha" "ev" () = .ok () := by
  have hg := SendCommand_SendEvent_dispatch Unit String Samples.mTwo "gamma" "ping" "ev" () ()
  have hb := SendCommand_SendEvent_dispatch Unit String Samples.mTwo "beta" "ping" "ev" () ()
  have ha := SendCommand_SendEvent_dispatch Unit String Samples.mTwo "alpha" "ping" "ev" () ()
  refine ⟨rfl, (hg.1 rfl).1, (hg.1 rfl).2, ?_, ?_, ?_, ?_⟩
  · exact (hb.2.1 Samples.instBetaStopped rfl (by simp [Samples.instBetaStopped])).1
  · exact (hb.2.1 Samples.instBetaStopped rfl (by simp [Samples.instBetaStopped])).2
  · exact ((ha.2.2 Samples.instAlphaRunning rfl rfl).1).trans rfl
  · exact ((ha.2.2 Samples.instAlphaRunning rfl rfl).2).trans rfl

/-- Claim C6: `Register` fails with "plugin already exists" on a name
collision and leaves the registry unchanged, and consequently every
state reachable from the empty registry carries pairwise-distinct plugin
names. -/
theorem Register_unique_names (α ρ : Type) (m : MState α ρ)
    (p : PluginImpl α ρ) (info : PluginInfo) :
    (p.info = some info → (lookupKey m.plugins info.name).isSome →
      Register m p = (.error "plugin already exists", m)) ∧
    (Reachable m → (m.plugins.map Prod.fst).Nodup) := by
  constructor
  · intro hi hs
    simp [Register, hi, hs]
  · intro hreach
    induction hreach with
    | init => simp
    | register m' p' _ ih =>
      cases hi : p'.info with
      | none => simpa [Register, hi] using ih
      | some i =>
        by_cases hs : (lookupKey m'.plugins i.name).isSome
        · simpa [Register, hi, hs] using ih
        · have hn : i.name ∉ m'.plugins.map Prod.fst := by
            rw [← lookupKey_eq_none_iff]
            cases hq : lookupKey m'.plugins i.name with
            | none => rfl
            | some v =>
              rw [hq] at hs
              exact absurd rfl hs
          simp only [Register, hi]
          rw [if_neg hs]
          simp only [List.map_append, List.map_cons, List.map_nil]
          rw [List.nodup_append]
          refine ⟨ih, List.nodup_singleton _, ?_⟩
          intro a haa hab
          have ha : a = i.name := by simpa using hab
          subst ha
          exact hn haa
    | unregister m' name _ ih =>
      cases hq : lookupKey m'.plugins name with
      | none => simpa [Unregister, hq] using ih
      | some inst =>
        simp only [Unregister, hq]
        exact ih.sublist (eraseKey_keys_sublist _ _)
    | start m' name _ ih =>
      cases hq : lookupKey m'.plugins name with
      | none => simpa [StartPlugin, hq] using ih
      | some inst =>
        by_cases hrun : inst.status.status = "running"
        · simpa [StartPlugin, hq, hrun] using ih
        · cases hi : inst.plugin.initResult with
          | error e => simpa [StartPlugin, hq, hrun, hi, setKey_map_fst] using ih
          | ok u =>
            cases hst : inst.plugin.startResult with
            | error e =>
              simpa [StartPlugin, hq, hrun, hi, hst, setKey_map_fst] using ih
            | ok u2 =>
              simpa [StartPlugin, hq, hrun, hi, hst, setKey_map_fst] using ih
    | stop m' name _ ih =>
      cases hq : lookupKey m'.plugins name with
      | none => simpa [StopPlugin, hq] using ih
      | some inst =>
        by_cases hrun : inst.status.status = "running"
        · cases hst : inst.plugin.stopResult with
          | error e =>
            simpa [StopPlugin, hq, hrun, hst, setKey_map_fst] using ih
          | ok u => simpa [StopPlugin, hq, hrun, hst, setKey_map_fst] using ih
        · simpa [StopPlugin, hq, hrun] using ih
    | mutateValue m' name inst _ ih => simpa [setKey_map_fst] using ih

/-- Witness for C6: registering a second "alpha" over `mRun` is rejected
with the registry unchanged, and a concrete reachable two-step state has
distinct names. -/
theorem Register_unique_names_witness :
    Samples.pluginAlpha.info = some Samples.infoAlpha ∧
    (lookupKey Samples.mRun.plugins Samples.infoAlpha.name).isSome ∧
    Register Samples.mRun Samples.pluginAlpha =
      (.error "plugin already exists", Samples.mRun) ∧
    (((Register (Register (⟨[]⟩ : MState Unit String) Samples.pluginAlpha).2
        Samples.pluginBeta).2).plugins.map Prod.fst).Nodup := by
  have h1 := Register_unique_names Unit String Samples.mRun Samples.pluginAlpha
    Samples.infoAlpha
  have h2 := Register_unique_names Unit String
    (Register (Register (⟨[]⟩ : MState Unit String) Samples.pluginAlpha).2
      Samples.pluginBeta).2 Samples.pluginAlpha Samples.infoAlpha
  refine ⟨rfl, rfl, h1.1 rfl rfl, ?_⟩
  exact h2.2 (Reachable.register _ Samples.pluginBeta
    (Reachable.register _ Samples.pluginAlpha Reachable.init))

theorem startPlugin_running {α ρ : Type} {m : MState α ρ} {name : String}
    {inst : Instance α ρ} (h : lookupKey m.plugins name = some inst)
    (hs : inst.status.status = "running") :
    StartPlugin m name = (.error "plugin already started", m, []) := by
  simp [StartPlugin, h, hs]

theorem startAllLoop_all_running {α ρ : Type} (m : MState α ρ)
    (names : List String)
    (h : ∀ n ∈ names, ∃ inst, lookupKey m.plugins n = some inst ∧
      inst.status.status = "running") :
    startAllLoop m names =
      (m, names.map
        (fun n => "failed to start plugin " ++ n ++ ": " ++ "plugin already started"),
       []) := by
  induction names with
  | nil => rfl
  | cons n rest ih =>
    obtain ⟨inst, hl, hrun⟩ := h n (List.mem_cons_self n rest)
    have hsp := startPlugin_running hl hrun
    have htail := ih (fun n' hn' => h n' (List.mem_cons_of_mem _ hn'))
    simp [startAllLoop, hsp, htail]

/-- Claim C10: starting an already-running plugin is rejected with
"plugin already started" before `Init` or `Start` is invoked (empty call
trace) and without any state change; consequently `StartAll` over a
non-empty registry of running plugins reports a combined failure instead
of succeeding idempotently. -/
theorem StartPlugin_already_started (α ρ : Type) (m : MState α ρ)
    (name : String) (inst : Instance α ρ) :
    (lookupKey m.plugins name = some inst → inst.status.status = "running" →
      StartPlugin m name = (.error "plugin already started", m, [])) ∧
    ((∀ kv ∈ m.plugins, kv.2.status.status = "running") → m.plugins ≠ [] →
      ∃ e, (StartAll m).1 = .error e) := by
  constructor
  · exact fun h hs => startPlugin_running h hs
  · intro hall hne
    have hnames : ∀ n ∈ m.plugins.map Prod.fst,
        ∃ inst', lookupKey m.plugins n = some inst' ∧
          inst'.status.status = "running" := by
      intro n hn
      have hsome := lookupKey_isSome_of_mem hn
      cases hq : lookupKey m.plugins n with
      | none =>
        rw [hq] at hsome
        simp at hsome
      | some inst' =>
        exact ⟨inst', rfl, hall _ (lookupKey_mem hq)⟩
    have hloop := startAllLoop_all_running m (m.plugins.map Prod.fst) hnames
    have hcond : (m.plugins.map Prod.fst).map
        (fun n => "failed to start plugin " ++ n ++ ": " ++
          "plugin already started") ≠ [] := by
      simp [hne]
    have hres : (StartAll m).1 =
        .error ("failed to start some plugins: " ++ String.intercalate "; "
          ((m.plugins.map Prod.fst).map
            (fun n => "failed to start plugin " ++ n ++ ": " ++
              "plugin already started"))) := by
      simp only [StartAll, hloop]
      rw [if_neg hcond]
    exact ⟨_, hres⟩

/-- Witness for C10 over the one-plugin running registry `mRun`. -/
theorem StartPlugin_already_started_witness :
    lookupKey Samples.mRun.plugins "alpha" = some Samples.instAlphaRunning ∧
    Samples.instAlphaRunning.status.status = "running" ∧
    StartPlugin Samples.mRun "alpha" =
      (.error "plugin already started", Samples.mRun, []) ∧
    ∃ e, (StartAll Samples.mRun).1 = .error e := by
  have h := StartPlugin_already_started Unit String Samples.mRun "alpha"
    Samples.instAlphaRunning
  refine ⟨rfl, rfl, h.1 rfl rfl, ?_⟩
  apply h.2
  · intro kv hkv
    simp [Samples.mRun] at hkv
    subst hkv
    rfl
  · simp [Samples.mRun]

end Plugin

/-! ## Scheduler update_task (claim C2) -/

namespace Scheduler

/-- Claim C2 as stated is false on the code: an `update_task` request
that renames a task and carries an invalid cron expression is rejected,
yet the rename has already been applied to the stored task. -/
theorem handleUpdateTask_invalid_cron_mutates :
    (handleUpdateTask stdCronOk stdCronOk Samples.stT1 Samples.argsBadCron).1 =
      .error "invalid cron expression" ∧
    (handleUpdateTask stdCronOk stdCronOk Samples.stT1 Samples.argsBadCron).2 ≠
      Samples.stT1 ∧
    lookupKey
        (handleUpdateTask stdCronOk stdCronOk
          Samples.stT1 Samples.argsBadCron).2.tasks "t1" =
      some { Samples.taskT1 with name := "new-name" } := by
  decide

/-- Claim C2 (amended): an `update_task` carrying an invalid cron
expression is rejected with "invalid cron expression" before the cron
expression, command, or type of the targeted Task is mutated and without
touching the cron scheduler — but a name or description carried by the
same request has already been applied to the Task when the rejection
happens. -/
theorem handleUpdateTask_invalid_cron_rejects
    (validCron5 validCron6 : String → Bool) (st : SchedState)
    (args : UpdateArgs) (id ce : String) (task : TaskInfo)
    (hid : args.id = some id)
    (hfound : lookupKey st.tasks id = some task)
    (hce : args.cronExpr = some ce)
    (hinvalid : validCron5 ce = false) :
    handleUpdateTask validCron5 validCron6 st args =
      (.error "invalid cron expression",
       { st with tasks := setKey st.tasks id { task with
           name := args.name.getD task.name,
           description := args.description.getD task.description } }) := by
  cases hn : args.name <;> cases hd : args.description <;>
    simp [handleUpdateTask, hid, hfound, hce, hinvalid, hn, hd]

/-- Witness for the amended C2 at the concrete task, request, and cron
validator. -/
theorem handleUpdateTask_invalid_cron_rejects_witness :
    Samples.argsBadCron.id = some "t1" ∧
    lookupKey Samples.stT1.tasks "t1" = some Samples.taskT1 ∧
    Samples.argsBadCron.cronExpr = some "nonsense" ∧
    stdCronOk "nonsense" = false ∧
    handleUpdateTask stdCronOk stdCronOk Samples.stT1 Samples.argsBadCron =
      (.error "invalid cron expression",
       { Samples.stT1 with tasks := setKey Samples.stT1.tasks "t1" { Samples.taskT1 with
           name := Samples.argsBadCron.name.getD Samples.taskT1.name,
           description :=
             Samples.argsBadCron.description.getD Samples.taskT1.description } }) :=
  ⟨rfl, rfl, rfl, by decide,
   handleUpdateTask_invalid_cron_rejects stdCronOk stdCronOk Samples.stT1
     Samples.argsBadCron "t1" "nonsense" Samples.taskT1 rfl rfl rfl (by decide)⟩

end Scheduler

end AssistantAgent
